import Mathlib

/-!
Verification of `get_missing_imgs_between_folders.py` (a tool that copies
image files present in a source directory but absent, by case-folded base
name, from an "upscaled" directory, into a "missing" directory, with an
optional corner-color filter).

The Python script is shallowly embedded: directory listings become lists of
entries, images become a structure with a pixel function, Python exceptions
become `Option` (none = an exception was raised), and the GUI handler
`find_and_copy_missing_images` becomes a pure function `run` from an
environment (the values the GUI widgets would supply, plus an abstract
filesystem) to a `RunOutcome` describing everything observable the handler
does: whether it reported a validation error, whether it created the missing
directory, the list of files it copied in order, whether an unhandled
exception escaped, and the summary message count (if any).
-/

/-- A direct entry of a directory as returned by `os.listdir`: its name and
whether it is a subdirectory.  `os.listdir` returns names of all direct
entries, files and subdirectories alike. -/
structure DirEntry where
  name : String
  isDir : Bool
deriving DecidableEq

/-- Names of the direct entries of a directory, as `os.listdir` returns them
(the entry kind is not visible in the listing). -/
def listdir (d : List DirEntry) : List String :=
  d.map (fun e => e.name)

/-- Python `str.lower()` restricted to ASCII letters (the script compares
file stems; `Char.toLower` models `str.lower` on the ASCII range). -/
def pyLower (s : String) : String :=
  ⟨s.data.map Char.toLower⟩

/-- Index of the last '.' in a list of characters, if any. -/
def lastDotIdx : List Char → Option Nat
  | [] => none
  | c :: rest =>
    match lastDotIdx rest with
    | some i => some (i + 1)
    | none => if c = '.' then some 0 else none

/-- Python `os.path.splitext` on a bare filename (no path separators): the
extension starts at the last dot, unless every character before that dot is
itself a dot (so `".bashrc"` has no extension). -/
def pySplitext (s : String) : String × String :=
  match lastDotIdx s.data with
  | none => (s, "")
  | some i =>
    if (s.data.take i).all (fun c => c = '.') then (s, "")
    else (⟨s.data.take i⟩, ⟨s.data.drop i⟩)

/-- The stem of a filename: `os.path.splitext(f)[0]`. -/
def pyStem (s : String) : String :=
  (pySplitext s).1

/-- Case-folded stem: `os.path.splitext(f)[0].lower()`, the key the script
compares filenames by. -/
def stemLower (s : String) : String :=
  pyLower (pyStem s)

/-- The upscaled `DirectorySnapshot`: case-folded stems of every direct
entry of the upscaled directory (line 79 of the script).  Python collects
them into a `set`; a list gives the same membership test. -/
def snapshotOf (ups : List DirEntry) : List String :=
  (listdir ups).map stemLower

/-- Whether a character is an ASCII hexadecimal digit. -/
def isHexDigit (c : Char) : Bool :=
  (decide ('0' ≤ c) && decide (c ≤ '9')) ||
  (decide ('a' ≤ c) && decide (c ≤ 'f')) ||
  (decide ('A' ≤ c) && decide (c ≤ 'F'))

/-- Value of an ASCII hexadecimal digit. -/
def hexVal (c : Char) : Nat :=
  if '0' ≤ c ∧ c ≤ '9' then c.toNat - '0'.toNat
  else if 'a' ≤ c ∧ c ≤ 'f' then c.toNat - 'a'.toNat + 10
  else if 'A' ≤ c ∧ c ≤ 'F' then c.toNat - 'A'.toNat + 10
  else 0

/-- Whitespace as stripped by Python `int` around a numeric literal,
modelled on the ASCII range (space, tab, newline, carriage return,
vertical tab, form feed). -/
def pyIsSpace (c : Char) : Bool :=
  c = ' ' || c = '\t' || c = '\n' || c = '\r' || c = '\x0b' || c = '\x0c'

/-- Continuation of a hex digit run in a Python numeric literal: further
digits with single underscores allowed between digits only (a doubled,
trailing, or misplaced underscore raises, as does any other character). -/
def hexDigitsGo : List Char → Nat → Option Nat
  | [], acc => some acc
  | '_' :: c :: rest, acc =>
    if isHexDigit c then hexDigitsGo rest (acc * 16 + hexVal c) else none
  | ['_'], _ => none
  | c :: rest, acc =>
    if isHexDigit c then hexDigitsGo rest (acc * 16 + hexVal c) else none

/-- A hex digit run: at least one digit, then `hexDigitsGo`. -/
def hexDigits1 : List Char → Option Nat
  | [] => none
  | c :: rest => if isHexDigit c then hexDigitsGo rest (hexVal c) else none

/-- The part of a base-16 `int` literal after the optional sign: an
optional `0x`/`0X` prefix (with one optional underscore after it), then at
least one hex digit. -/
def hexAfterSign : List Char → Option Nat
  | '0' :: x :: rest =>
    if x = 'x' ∨ x = 'X' then
      match rest with
      | '_' :: rest2 => hexDigits1 rest2
      | _ => hexDigits1 rest
    else hexDigits1 ('0' :: x :: rest)
  | cs => hexDigits1 cs

/-- Python `int(s, 16)`: strip surrounding whitespace, accept one optional
leading sign, an optional `0x`/`0X` prefix and a run of hex digits with
single underscores between digits; `none` models the raised `ValueError`
on anything else (digits and whitespace modelled on the ASCII range). -/
def pyIntHex (cs : List Char) : Option Int :=
  match ((cs.dropWhile pyIsSpace).reverse.dropWhile pyIsSpace).reverse with
  | '+' :: rest => (hexAfterSign rest).map (fun n => (n : Int))
  | '-' :: rest => (hexAfterSign rest).map (fun n => -(n : Int))
  | t => (hexAfterSign t).map (fun n => (n : Int))

/-- Python slice `s[i:i+2]`: up to two characters starting at `i`, possibly
fewer or none when the string is short. -/
def slice2 (cs : List Char) (i : Nat) : List Char :=
  (cs.drop i).take 2

/-- Python `s.lstrip('#')`: remove every leading '#'. -/
def pyLstripHash (s : String) : List Char :=
  s.data.dropWhile (fun c => c = '#')

/-- Line 76 of the script:
`tuple(int(target_color.lstrip('#')[i:i+2], 16) for i in (0, 2, 4))`.
Returns the RGB triple, or `none` when `int` raises on one of the three
two-character slices. -/
def parseHexColor (s : String) : Option (List Int) :=
  match pyIntHex (slice2 (pyLstripHash s) 0), pyIntHex (slice2 (pyLstripHash s) 2),
      pyIntHex (slice2 (pyLstripHash s) 4) with
  | some r, some g, some b => some [r, g, b]
  | _, _, _ => none

/-- A decoded image: its size and a pixel map giving the list of channel
values at each coordinate (3 entries for RGB, 4 for RGBA, fewer for other
modes; extra channels beyond the first three are never read). -/
structure PyImage where
  width : Nat
  height : Nat
  pixel : Nat → Nat → List Int

/-- Short-circuiting Python `all` over values that may raise: `none` is a
raised exception, `some false` stops with `False` before later elements are
evaluated (so a later exception is never reached), `some true` continues. -/
def pyAllOpt : List (Option Bool) → Option Bool
  | [] => some true
  | x :: rest =>
    match x with
    | none => none
    | some false => some false
    | some true => pyAllOpt rest

/-- One channel comparison `abs(pixel[i] - target_color[i]) <= threshold`
(line 45): `none` when either indexing raises (pixel tuple shorter than
`i + 1`, as for grayscale or luminance-alpha images). -/
def chanCheck (pixel target : List Int) (threshold : Int) (i : Nat) : Option Bool :=
  match pixel.get? i, target.get? i with
  | some p, some t => some (decide (|p - t| ≤ threshold))
  | _, _ => none

/-- `is_corner_color` (lines 43-45):
`all(abs(pixel[i] - target_color[i]) <= threshold for i in range(3))`,
with Python's short-circuit evaluation and `none` for a raised exception. -/
def is_corner_color (pixel target : List Int) (threshold : Int) : Option Bool :=
  pyAllOpt [chanCheck pixel target threshold 0,
            chanCheck pixel target threshold 1,
            chanCheck pixel target threshold 2]

/-- The four corner pixels read at line 53, in source order:
`(0,0)`, `(0, height-1)`, `(width-1, 0)`, `(width-1, height-1)`. -/
def cornerPixels (img : PyImage) : List (List Int) :=
  [img.pixel 0 0,
   img.pixel 0 (img.height - 1),
   img.pixel (img.width - 1) 0,
   img.pixel (img.width - 1) (img.height - 1)]

/-- Reading the four corners: raises (`none`) when the image has zero width
or height, putting a corner coordinate out of range. -/
def getCorners (img : PyImage) : Option (List (List Int)) :=
  if 0 < img.width ∧ 0 < img.height then some (cornerPixels img) else none

/-- `check_corners_color` (lines 47-57).  The argument is the result of
`Image.open` on the path: `none` when the file cannot be opened or decoded.
Every exception inside the `try` block (open failure, out-of-range corner,
short pixel tuple) is caught and turned into `False`. -/
def check_corners_color (img : Option PyImage) (target : List Int)
    (threshold : Int) : Bool :=
  match img with
  | none => false
  | some i =>
    match getCorners i with
    | none => false
    | some corners =>
      (pyAllOpt (corners.map (fun c => is_corner_color c target threshold))).getD false

/-- The inputs of one invocation of `find_and_copy_missing_images`: the
widget values (three directories, the checkbox, the color string) plus an
abstract filesystem.  A directory field is `none` when `os.path.isdir` is
false for it.  `readImage f` is the result of `Image.open` on the source
file named `f` (`none` = cannot open or decode); `copyOk f` is whether
`shutil.copy` of the source file named `f` succeeds. -/
structure Env where
  sourceDir : Option (List DirEntry)
  upscaledDir : Option (List DirEntry)
  missingExists : Bool
  checkCorners : Bool
  colorString : String
  readImage : String → Option PyImage
  copyOk : String → Bool

/-- An exception escaping `find_and_copy_missing_images`: the color parse
raising `ValueError`, or `shutil.copy` failing on a named file. -/
inductive RunError where
  | parseError : RunError
  | copyError : String → RunError
deriving DecidableEq

/-- Everything observable one invocation does: whether it showed the
"invalid directory" error, whether `os.makedirs` was called, the copied
files in order, an escaped exception (if any), and the summary count shown
by the final `showinfo` (`none` when no summary was reached). -/
structure RunOutcome where
  validationError : Bool
  createdMissing : Bool
  copied : List String
  error : Option RunError
  summary : Option Nat
deriving DecidableEq

/-- The per-file condition under which the loop body reaches the copy at
line 101: the case-folded stem is absent from the snapshot, and the corner
filter is off or passes. -/
def passes (env : Env) (snap : List String) (rgb : List Int) (f : String) : Bool :=
  !(decide (stemLower f ∈ snap)) &&
  (!env.checkCorners || check_corners_color (env.readImage f) rgb 10)

/-- The loop of lines 84-102, processing the source listing in order with
the accumulated list of copied files.  A failing `shutil.copy` aborts the
whole loop with an escaped exception; reaching the end produces the summary
with the copied count. -/
def processFiles (env : Env) (snap : List String) (rgb : List Int) :
    List String → List String → RunOutcome
  | [], acc =>
    { validationError := false
      createdMissing := !env.missingExists
      copied := acc
      error := none
      summary := some acc.length }
  | f :: rest, acc =>
    if stemLower f ∈ snap then
      processFiles env snap rgb rest acc
    else if env.checkCorners && !(check_corners_color (env.readImage f) rgb 10) then
      processFiles env snap rgb rest acc
    else if env.copyOk f then
      processFiles env snap rgb rest (acc ++ [f])
    else
      { validationError := false
        createdMissing := !env.missingExists
        copied := acc
        error := some (RunError.copyError f)
        summary := none }

/-- `find_and_copy_missing_images` (lines 59-108): validate the two input
directories, create the missing directory when absent, parse the color
string (unconditionally, before any listing is taken), build the snapshot,
then run the copy loop. -/
def run (env : Env) : RunOutcome :=
  match env.sourceDir, env.upscaledDir with
  | some src, some ups =>
    match parseHexColor env.colorString with
    | none =>
      { validationError := false
        createdMissing := !env.missingExists
        copied := []
        error := some RunError.parseError
        summary := none }
    | some rgb => processFiles env (snapshotOf ups) rgb (listdir src) []
  | _, _ =>
    { validationError := true
      createdMissing := false
      copied := []
      error := none
      summary := none }

/-- The set of names present in the missing directory after a run: each
copied file is written under its original name, `shutil.copy` overwriting a
same-named file rather than adding a second one. -/
def applyCopies (missing : List String) (copied : List String) : List String :=
  copied.foldl (fun acc f => if f ∈ acc then acc else acc ++ [f]) missing


/-! ## Concrete instances used by the witnesses and counterexamples -/

/-- A 2x2 all-black RGB image. -/
def wimgOK : PyImage :=
  ⟨2, 2, fun _ _ => [0, 0, 0]⟩

/-- Scenario of spec section 8, case A: source has `cat.png` and `dog.jpg`,
upscaled has `cat.PNG`, corner filter disabled. -/
def envA : Env :=
  { sourceDir := some [⟨"cat.png", false⟩, ⟨"dog.jpg", false⟩]
    upscaledDir := some [⟨"cat.PNG", false⟩]
    missingExists := false
    checkCorners := false
    colorString := "#000000"
    readImage := fun _ => none
    copyOk := fun _ => true }

/-- A run with the corner filter enabled over a single unreadable file. -/
def envC3 : Env :=
  { sourceDir := some [⟨"bad.png", false⟩]
    upscaledDir := some []
    missingExists := false
    checkCorners := true
    colorString := "#000000"
    readImage := fun _ => none
    copyOk := fun _ => true }

/-- A run whose source directory is invalid. -/
def envC4 : Env :=
  { sourceDir := none
    upscaledDir := some []
    missingExists := false
    checkCorners := false
    colorString := "#000000"
    readImage := fun _ => none
    copyOk := fun _ => true }

/-- Same stem, different extensions: `photo.png` in source, `photo.jpg` in
upscaled. -/
def envC5 : Env :=
  { sourceDir := some [⟨"photo.png", false⟩]
    upscaledDir := some [⟨"photo.jpg", false⟩]
    missingExists := false
    checkCorners := false
    colorString := "#000000"
    readImage := fun _ => none
    copyOk := fun _ => true }

/-- Two distinct source files with equal case-folded stems. -/
def envC7 : Env :=
  { sourceDir := some [⟨"A.png", false⟩, ⟨"a.PNG", false⟩]
    upscaledDir := some []
    missingExists := false
    checkCorners := false
    colorString := "#000000"
    readImage := fun _ => none
    copyOk := fun _ => true }

/-- A run in which copying the second file fails. -/
def envC8 : Env :=
  { sourceDir := some [⟨"a.png", false⟩, ⟨"b.png", false⟩]
    upscaledDir := some []
    missingExists := false
    checkCorners := false
    colorString := "#000000"
    readImage := fun _ => none
    copyOk := fun g => !(g == "b.png") }

/-- A run with a wrong-length color string, `#12345` (five hex characters
instead of six), and the corner filter disabled. -/
def envC9 : Env :=
  { sourceDir := some [⟨"x.png", false⟩]
    upscaledDir := some []
    missingExists := true
    checkCorners := false
    colorString := "#12345"
    readImage := fun _ => none
    copyOk := fun _ => true }

/-- A run with a color string, `#123`, on which the parse raises. -/
def envC9a : Env :=
  { sourceDir := some [⟨"x.png", false⟩]
    upscaledDir := some []
    missingExists := false
    checkCorners := false
    colorString := "#123"
    readImage := fun _ => none
    copyOk := fun _ => true }

/-- A run with the color string `#+1+2+3`: every two-character slice is a
signed hex literal, which `int(s, 16)` accepts, so the parse succeeds
despite the non-hex characters. -/
def envC9b : Env :=
  { sourceDir := some [⟨"x.png", false⟩]
    upscaledDir := some []
    missingExists := true
    checkCorners := false
    colorString := "#+1+2+3"
    readImage := fun _ => none
    copyOk := fun _ => true }

/-- Source file `a.b.png` (stem `a.b`) and an upscaled subdirectory named
`a.b` (whose splitext stem is `a`). -/
def envC10 : Env :=
  { sourceDir := some [⟨"a.b.png", false⟩]
    upscaledDir := some [⟨"a.b", true⟩]
    missingExists := false
    checkCorners := false
    colorString := "#000000"
    readImage := fun _ => none
    copyOk := fun _ => true }

/-- Source file `PHOTO.png` and an upscaled subdirectory named `photo`. -/
def envC10a : Env :=
  { sourceDir := some [⟨"PHOTO.png", false⟩]
    upscaledDir := some [⟨"photo", true⟩]
    missingExists := false
    checkCorners := false
    colorString := "#000000"
    readImage := fun _ => none
    copyOk := fun _ => true }


/-! ## Helper lemmas -/

theorem pyAllOpt_eq_some_true {l : List (Option Bool)} :
    pyAllOpt l = some true ↔ ∀ x ∈ l, x = some true := by
  induction l with
  | nil => simp [pyAllOpt]
  | cons x rest ih =>
    cases x with
    | none => simp [pyAllOpt]
    | some b =>
      cases b with
      | false => simp [pyAllOpt]
      | true => simp [pyAllOpt, ih]

theorem chanCheck_eq_some_true {pixel target : List Int} {threshold : Int} {i : Nat} :
    chanCheck pixel target threshold i = some true ↔
      ∃ v t, pixel.get? i = some v ∧ target.get? i = some t ∧ |v - t| ≤ threshold := by
  unfold chanCheck
  cases hp : pixel.get? i with
  | none => simp
  | some v =>
    cases ht : target.get? i with
    | none => simp
    | some t =>
      simp only [Option.some.injEq]
      constructor
      · intro h
        exact ⟨v, t, rfl, rfl, by simpa using h⟩
      · rintro ⟨v', t', hv, ht', hle⟩
        cases hv
        cases ht'
        simpa using hle

theorem is_corner_color_eq_some_true {pixel target : List Int} {threshold : Int} :
    is_corner_color pixel target threshold = some true ↔
      ∀ i < 3, ∃ v t, pixel.get? i = some v ∧ target.get? i = some t ∧
        |v - t| ≤ threshold := by
  unfold is_corner_color
  rw [pyAllOpt_eq_some_true]
  constructor
  · intro h i hi
    interval_cases i <;> exact chanCheck_eq_some_true.mp (h _ (by simp))
  · intro h x hx
    simp only [List.mem_cons, List.not_mem_nil, or_false] at hx
    rcases hx with h0 | h1 | h2
    · exact h0 ▸ chanCheck_eq_some_true.mpr (h 0 (by omega))
    · exact h1 ▸ chanCheck_eq_some_true.mpr (h 1 (by omega))
    · exact h2 ▸ chanCheck_eq_some_true.mpr (h 2 (by omega))

theorem getD_false_true {o : Option Bool} : o.getD false = true ↔ o = some true := by
  cases o <;> simp

theorem check_corners_true_iff {img : PyImage} {target : List Int} {threshold : Int} :
    check_corners_color (some img) target threshold = true ↔
      0 < img.width ∧ 0 < img.height ∧
      ∀ c ∈ cornerPixels img, ∀ i < 3, ∃ v t, c.get? i = some v ∧
        target.get? i = some t ∧ |v - t| ≤ threshold := by
  by_cases h : 0 < img.width ∧ 0 < img.height
  · have hg : getCorners img = some (cornerPixels img) := by
      simp [getCorners, h.1, h.2]
    have hred : check_corners_color (some img) target threshold =
        (pyAllOpt ((cornerPixels img).map
          (fun c => is_corner_color c target threshold))).getD false := by
      simp [check_corners_color, hg]
    rw [hred, getD_false_true, pyAllOpt_eq_some_true]
    constructor
    · intro hall
      exact ⟨h.1, h.2, fun c hc =>
        is_corner_color_eq_some_true.mp (hall _ (List.mem_map.mpr ⟨c, hc, rfl⟩))⟩
    · rintro ⟨-, -, hc⟩ x hx
      rcases List.mem_map.mp hx with ⟨c, hcmem, rfl⟩
      exact is_corner_color_eq_some_true.mpr (hc c hcmem)
  · have hg : getCorners img = none := by
      simp [getCorners, h]
    have hred : check_corners_color (some img) target threshold = false := by
      simp [check_corners_color, hg]
    rw [hred]
    simp only [Bool.false_eq_true, false_iff]
    intro hc
    exact h ⟨hc.1, hc.2.1⟩

theorem passes_eq_true_iff {env : Env} {snap : List String} {rgb : List Int}
    {f : String} :
    passes env snap rgb f = true ↔
      stemLower f ∉ snap ∧
      (env.checkCorners = true → check_corners_color (env.readImage f) rgb 10 = true) := by
  unfold passes
  cases hc : env.checkCorners <;>
    cases hm : check_corners_color (env.readImage f) rgb 10 <;>
      by_cases hs : stemLower f ∈ snap <;> simp [hs, hm]

theorem processFiles_complete {env : Env} {snap : List String} {rgb : List Int}
    {l : List String} (acc : List String) (hco : ∀ f ∈ l, env.copyOk f = true) :
    processFiles env snap rgb l acc =
      { validationError := false
        createdMissing := !env.missingExists
        copied := acc ++ l.filter (passes env snap rgb)
        error := none
        summary := some (acc ++ l.filter (passes env snap rgb)).length } := by
  induction l generalizing acc with
  | nil => simp [processFiles]
  | cons f rest ih =>
    have hcof : env.copyOk f = true := hco f (List.mem_cons_self f rest)
    have hcorest : ∀ g ∈ rest, env.copyOk g = true :=
      fun g hg => hco g (List.mem_cons_of_mem f hg)
    by_cases hs : stemLower f ∈ snap
    · have hp : passes env snap rgb f = false := by simp [passes, hs]
      simp only [processFiles, if_pos hs]
      rw [ih _ hcorest, List.filter_cons, hp]
      simp
    · cases hb : env.checkCorners && !(check_corners_color (env.readImage f) rgb 10) with
      | true =>
        rcases Bool.and_eq_true_iff.mp hb with ⟨hc, hm⟩
        have hm' : check_corners_color (env.readImage f) rgb 10 = false := by
          simpa using hm
        have hp : passes env snap rgb f = false := by simp [passes, hs, hc, hm']
        simp only [processFiles, if_neg hs, hb, if_true]
        rw [ih _ hcorest, List.filter_cons, hp]
        simp
      | false =>
        have hor : (!env.checkCorners ||
            check_corners_color (env.readImage f) rgb 10) = true := by
          cases hc : env.checkCorners <;>
            cases hm : check_corners_color (env.readImage f) rgb 10 <;>
              simp [hc, hm] at hb ⊢
        have hp : passes env snap rgb f = true := by simp [passes, hs, hor]
        simp only [processFiles, if_neg hs, hb, hcof, if_true, Bool.false_eq_true,
          if_false]
        rw [ih _ hcorest, List.filter_cons, hp]
        simp

theorem mem_processFiles_copied {env : Env} {snap : List String} {rgb : List Int}
    {l acc : List String} {f : String}
    (h : f ∈ (processFiles env snap rgb l acc).copied) :
    f ∈ acc ∨ (f ∈ l ∧ passes env snap rgb f = true) := by
  induction l generalizing acc with
  | nil =>
    simp only [processFiles] at h
    exact Or.inl h
  | cons g rest ih =>
    by_cases hs : stemLower g ∈ snap
    · simp only [processFiles, if_pos hs] at h
      rcases ih h with h1 | h1
      · exact Or.inl h1
      · exact Or.inr ⟨List.mem_cons_of_mem g h1.1, h1.2⟩
    · cases hb : env.checkCorners && !(check_corners_color (env.readImage g) rgb 10) with
      | true =>
        simp only [processFiles, if_neg hs, hb, if_true] at h
        rcases ih h with h1 | h1
        · exact Or.inl h1
        · exact Or.inr ⟨List.mem_cons_of_mem g h1.1, h1.2⟩
      | false =>
        have hor : (!env.checkCorners ||
            check_corners_color (env.readImage g) rgb 10) = true := by
          cases hc : env.checkCorners <;>
            cases hm : check_corners_color (env.readImage g) rgb 10 <;>
              simp [hc, hm] at hb ⊢
        cases hok : env.copyOk g with
        | true =>
          simp only [processFiles, if_neg hs, hb, hok, if_true, Bool.false_eq_true,
            if_false] at h
          rcases ih h with h1 | h1
          · rcases List.mem_append.mp h1 with ha | hg
            · exact Or.inl ha
            · have hfg : f = g := by simpa using hg
              subst hfg
              exact Or.inr ⟨List.mem_cons_self f rest, by simp [passes, hs, hor]⟩
          · exact Or.inr ⟨List.mem_cons_of_mem g h1.1, h1.2⟩
        | false =>
          simp only [processFiles, if_neg hs, hb, hok, Bool.false_eq_true,
            if_false] at h
          exact Or.inl h

theorem processFiles_abort {env : Env} {snap : List String} {rgb : List Int}
    {l1 l2 : List String} {f : String} (acc : List String)
    (h1 : ∀ g ∈ l1, env.copyOk g = true)
    (hp : passes env snap rgb f = true)
    (hf : env.copyOk f = false) :
    processFiles env snap rgb (l1 ++ f :: l2) acc =
      { validationError := false
        createdMissing := !env.missingExists
        copied := acc ++ l1.filter (passes env snap rgb)
        error := some (RunError.copyError f)
        summary := none } := by
  induction l1 generalizing acc with
  | nil =>
    rcases passes_eq_true_iff.mp hp with ⟨hs, hm⟩
    have hb : (env.checkCorners &&
        !(check_corners_color (env.readImage f) rgb 10)) = false := by
      cases hc : env.checkCorners
      · simp
      · simp [hm hc]
    simp only [List.nil_append, processFiles, if_neg hs, hb, Bool.false_eq_true,
      if_false, hf]
    simp
  | cons g rest ih =>
    have hcog : env.copyOk g = true := h1 g (List.mem_cons_self g rest)
    have hrest : ∀ x ∈ rest, env.copyOk x = true :=
      fun x hx => h1 x (List.mem_cons_of_mem g hx)
    by_cases hs : stemLower g ∈ snap
    · have hpg : passes env snap rgb g = false := by simp [passes, hs]
      simp only [List.cons_append, processFiles, if_pos hs]
      simp only [List.append_eq]
      rw [ih _ hrest, List.filter_cons, hpg]
      simp
    · cases hb : env.checkCorners && !(check_corners_color (env.readImage g) rgb 10) with
      | true =>
        rcases Bool.and_eq_true_iff.mp hb with ⟨hc, hm⟩
        have hm' : check_corners_color (env.readImage g) rgb 10 = false := by
          simpa using hm
        have hpg : passes env snap rgb g = false := by simp [passes, hs, hc, hm']
        simp only [List.cons_append, processFiles, if_neg hs, hb, if_true]
        simp only [List.append_eq]
        rw [ih _ hrest, List.filter_cons, hpg]
        simp
      | false =>
        have hor : (!env.checkCorners ||
            check_corners_color (env.readImage g) rgb 10) = true := by
          cases hc : env.checkCorners <;>
            cases hm : check_corners_color (env.readImage g) rgb 10 <;>
              simp [hc, hm] at hb ⊢
        have hpg : passes env snap rgb g = true := by simp [passes, hs, hor]
        simp only [List.cons_append, processFiles, if_neg hs, hb, hcog, if_true,
          Bool.false_eq_true, if_false]
        simp only [List.append_eq]
        rw [ih _ hrest, List.filter_cons, hpg]
        simp

theorem run_complete {env : Env} {src ups : List DirEntry} {rgb : List Int}
    (hs : env.sourceDir = some src) (hu : env.upscaledDir = some ups)
    (hp : parseHexColor env.colorString = some rgb)
    (hco : ∀ f, env.copyOk f = true) :
    run env =
      { validationError := false
        createdMissing := !env.missingExists
        copied := (listdir src).filter (passes env (snapshotOf ups) rgb)
        error := none
        summary :=
          some ((listdir src).filter (passes env (snapshotOf ups) rgb)).length } := by
  unfold run
  rw [hs, hu, hp]
  simpa using processFiles_complete [] (fun f _ => hco f)

theorem mem_run_copied {env : Env} {f : String} (h : f ∈ (run env).copied) :
    ∃ src ups rgb, env.sourceDir = some src ∧ env.upscaledDir = some ups ∧
      parseHexColor env.colorString = some rgb ∧ f ∈ listdir src ∧
      stemLower f ∉ snapshotOf ups ∧
      (env.checkCorners = true →
        check_corners_color (env.readImage f) rgb 10 = true) := by
  unfold run at h
  cases hsd : env.sourceDir with
  | none =>
    rw [hsd] at h
    simp at h
  | some src =>
    cases hud : env.upscaledDir with
    | none =>
      rw [hsd, hud] at h
      simp at h
    | some ups =>
      rw [hsd, hud] at h
      cases hpc : parseHexColor env.colorString with
      | none =>
        rw [hpc] at h
        simp at h
      | some rgb =>
        rw [hpc] at h
        simp only [] at h
        rcases mem_processFiles_copied h with h1 | h1
        · simp at h1
        · rcases passes_eq_true_iff.mp h1.2 with ⟨hsnap, hcc⟩
          exact ⟨src, ups, rgb, rfl, rfl, rfl, h1.1, hsnap, hcc⟩

theorem run_parse_failed {env : Env} {src ups : List DirEntry}
    (hs : env.sourceDir = some src) (hu : env.upscaledDir = some ups)
    (hp : parseHexColor env.colorString = none) :
    run env =
      { validationError := false
        createdMissing := !env.missingExists
        copied := []
        error := some RunError.parseError
        summary := none } := by
  unfold run
  rw [hs, hu, hp]

theorem parseHexColor_third_none {s : String}
    (h : pyIntHex (slice2 (pyLstripHash s) 4) = none) :
    parseHexColor s = none := by
  unfold parseHexColor
  rw [h]
  cases pyIntHex (slice2 (pyLstripHash s) 0) <;>
    cases pyIntHex (slice2 (pyLstripHash s) 2) <;> rfl

theorem parse_short_none (s : String) (h : (pyLstripHash s).length < 5) :
    parseHexColor s = none := by
  apply parseHexColor_third_none
  have hdrop : (pyLstripHash s).drop 4 = [] :=
    List.drop_eq_nil_of_le (by omega)
  unfold slice2
  rw [hdrop]
  rfl

theorem processFiles_agree (e1 e2 : Env)
    (hcc : e1.checkCorners = e2.checkCorners)
    (hri : e1.readImage = e2.readImage)
    (hco : e1.copyOk = e2.copyOk)
    (snap : List String) (rgb : List Int) (l acc : List String) :
    (processFiles e1 snap rgb l acc).copied = (processFiles e2 snap rgb l acc).copied ∧
    (processFiles e1 snap rgb l acc).error = (processFiles e2 snap rgb l acc).error ∧
    (processFiles e1 snap rgb l acc).summary = (processFiles e2 snap rgb l acc).summary := by
  induction l generalizing acc with
  | nil => simp [processFiles]
  | cons f rest ih =>
    by_cases hs : stemLower f ∈ snap
    · simp only [processFiles, if_pos hs]
      exact ih acc
    · simp only [processFiles, if_neg hs, hcc, hri, hco]
      cases hb : e2.checkCorners && !(check_corners_color (e2.readImage f) rgb 10) with
      | true =>
        simp only [if_true]
        exact ih acc
      | false =>
        cases hok : e2.copyOk f with
        | true =>
          simp only [Bool.false_eq_true, if_false, if_true]
          exact ih (acc ++ [f])
        | false =>
          simp only [Bool.false_eq_true, if_false]
          refine ⟨?_, ?_, ?_⟩ <;> trivial

theorem run_agree (e1 e2 : Env)
    (hsd : e1.sourceDir = e2.sourceDir) (hud : e1.upscaledDir = e2.upscaledDir)
    (hcs : e1.colorString = e2.colorString)
    (hcc : e1.checkCorners = e2.checkCorners)
    (hri : e1.readImage = e2.readImage) (hco : e1.copyOk = e2.copyOk) :
    (run e1).copied = (run e2).copied ∧
    (run e1).error = (run e2).error ∧
    (run e1).summary = (run e2).summary := by
  unfold run
  rw [hsd, hud, hcs]
  cases e2.sourceDir with
  | none => simp
  | some src =>
    cases e2.upscaledDir with
    | none => simp
    | some ups =>
      simp only []
      cases parseHexColor e2.colorString with
      | none => simp
      | some rgb => exact processFiles_agree e1 e2 hcc hri hco _ _ _ _

theorem applyCopies_cons (missing : List String) (g : String) (rest : List String) :
    applyCopies missing (g :: rest) =
      applyCopies (if g ∈ missing then missing else missing ++ [g]) rest := rfl

theorem mem_applyCopies_left {missing copied : List String} {x : String}
    (h : x ∈ missing) : x ∈ applyCopies missing copied := by
  induction copied generalizing missing with
  | nil => simpa [applyCopies] using h
  | cons g rest ih =>
    rw [applyCopies_cons]
    by_cases hg : g ∈ missing
    · rw [if_pos hg]
      exact ih h
    · rw [if_neg hg]
      exact ih (List.mem_append_left _ h)

theorem mem_applyCopies_of_mem {missing copied : List String} {x : String}
    (h : x ∈ copied) : x ∈ applyCopies missing copied := by
  induction copied generalizing missing with
  | nil => simp at h
  | cons g rest ih =>
    rw [applyCopies_cons]
    rcases List.mem_cons.mp h with rfl | hx
    · apply mem_applyCopies_left
      by_cases hg : x ∈ missing
      · rw [if_pos hg]
        exact hg
      · rw [if_neg hg]
        exact List.mem_append_right _ (List.mem_singleton.mpr rfl)
    · exact ih hx

theorem applyCopies_eq_of_subset {missing copied : List String}
    (h : ∀ x ∈ copied, x ∈ missing) : applyCopies missing copied = missing := by
  induction copied with
  | nil => rfl
  | cons g rest ih =>
    rw [applyCopies_cons, if_pos (h g (List.mem_cons_self g rest))]
    exact ih (fun x hx => h x (List.mem_cons_of_mem g hx))

/-! ## Claims -/

/-- Claim C1: in a run of the resolver over valid directories, with the
color string parsed and every copy succeeding, a file listed directly in
the source directory is copied into the missing directory if and only if
(a) its case-folded stem is absent from the set of case-folded stems of the
upscaled directory's entries, and (b) the corner-check option is disabled
or the corner-color check returns true for that file; and the reported
copied count equals the number of such files. -/
theorem claim_C1 (env : Env) (src ups : List DirEntry) (rgb : List Int)
    (hs : env.sourceDir = some src) (hu : env.upscaledDir = some ups)
    (hp : parseHexColor env.colorString = some rgb)
    (hco : ∀ f, env.copyOk f = true) :
    (run env).copied = (listdir src).filter (passes env (snapshotOf ups) rgb) ∧
    (run env).summary =
      some ((listdir src).filter (passes env (snapshotOf ups) rgb)).length ∧
    ∀ f, (f ∈ (run env).copied ↔
      f ∈ listdir src ∧ stemLower f ∉ snapshotOf ups ∧
      (env.checkCorners = true →
        check_corners_color (env.readImage f) rgb 10 = true)) := by
  rw [run_complete hs hu hp hco]
  refine ⟨rfl, rfl, fun f => ?_⟩
  simp only [List.mem_filter]
  constructor
  · rintro ⟨hmem, hpass⟩
    rcases passes_eq_true_iff.mp hpass with ⟨h1, h2⟩
    exact ⟨hmem, h1, h2⟩
  · rintro ⟨hmem, h1, h2⟩
    exact ⟨hmem, passes_eq_true_iff.mpr ⟨h1, h2⟩⟩

/-- Witness for C1 at the concrete scenario `envA` (spec scenario A). -/
theorem claim_C1_witness :
    envA.sourceDir = some [⟨"cat.png", false⟩, ⟨"dog.jpg", false⟩] ∧
    envA.upscaledDir = some [⟨"cat.PNG", false⟩] ∧
    parseHexColor envA.colorString = some [0, 0, 0] ∧
    (run envA).copied =
      (listdir [⟨"cat.png", false⟩, ⟨"dog.jpg", false⟩]).filter
        (passes envA (snapshotOf [⟨"cat.PNG", false⟩]) [0, 0, 0]) :=
  ⟨rfl, rfl, by decide,
   (claim_C1 envA _ _ _ rfl rfl (by decide) (fun _ => rfl)).1⟩

/-- Claim C2: for an image whose four corners are all read successfully,
if every corner's first three channels are each within the threshold of the
target, the corner matcher returns true; and if any corner has one of its
first three channels present but beyond the threshold, it returns false
(channels beyond the first three are ignored). -/
theorem claim_C2 (img : PyImage) (t0 t1 t2 threshold : Int)
    (hw : 0 < img.width) (hh : 0 < img.height) :
    ((∀ c ∈ cornerPixels img, ∀ i < 3, ∃ v t, c.get? i = some v ∧
        [t0, t1, t2].get? i = some t ∧ |v - t| ≤ threshold) →
      check_corners_color (some img) [t0, t1, t2] threshold = true) ∧
    (∀ c ∈ cornerPixels img, ∀ i, i < 3 → ∀ v t, c.get? i = some v →
      [t0, t1, t2].get? i = some t → threshold < |v - t| →
      check_corners_color (some img) [t0, t1, t2] threshold = false) := by
  constructor
  · intro h
    exact check_corners_true_iff.mpr ⟨hw, hh, h⟩
  · intro c hc i hi v t hv ht hgt
    cases hcc : check_corners_color (some img) [t0, t1, t2] threshold with
    | false => rfl
    | true =>
      rcases check_corners_true_iff.mp hcc with ⟨-, -, hall⟩
      rcases hall c hc i hi with ⟨v', t', hv', ht', hle⟩
      rw [hv] at hv'
      rw [ht] at ht'
      obtain rfl : v = v' := Option.some.inj hv'
      obtain rfl : t = t' := Option.some.inj ht'
      exact absurd hle (not_le.mpr hgt)

/-- Witness for C2 at a concrete 2x2 all-black image with target black. -/
theorem claim_C2_witness :
    0 < wimgOK.width ∧ 0 < wimgOK.height ∧
    (((∀ c ∈ cornerPixels wimgOK, ∀ i < 3, ∃ v t, c.get? i = some v ∧
        [(0 : Int), 0, 0].get? i = some t ∧ |v - t| ≤ 10) →
      check_corners_color (some wimgOK) [0, 0, 0] 10 = true) ∧
    (∀ c ∈ cornerPixels wimgOK, ∀ i, i < 3 → ∀ v t, c.get? i = some v →
      [(0 : Int), 0, 0].get? i = some t → 10 < |v - t| →
      check_corners_color (some wimgOK) [0, 0, 0] 10 = false)) :=
  ⟨by decide, by decide, claim_C2 wimgOK 0 0 0 10 (by decide) (by decide)⟩

/-- Claim C3: the corner matcher is a total function (no exception reaches
its caller); on a file that cannot be opened or decoded it returns false,
and such a file is never copied when the corner filter is enabled.  The
report of the condition is Python's `print` at line 56, outside this
embedding. -/
theorem claim_C3 (env : Env) (f : String) (target : List Int) (threshold : Int)
    (himg : env.readImage f = none) (hcheck : env.checkCorners = true) :
    check_corners_color (env.readImage f) target threshold = false ∧
    f ∉ (run env).copied := by
  constructor
  · rw [himg]
    rfl
  · intro hmem
    rcases mem_run_copied hmem with ⟨src, ups, rgb, -, -, -, -, -, hcc⟩
    have hres := hcc hcheck
    rw [himg] at hres
    exact absurd hres (by simp [check_corners_color])

/-- Witness for C3: a run with the filter on over one unreadable file. -/
theorem claim_C3_witness :
    envC3.readImage "bad.png" = none ∧ envC3.checkCorners = true ∧
    (check_corners_color (envC3.readImage "bad.png") [0, 0, 0] 10 = false ∧
      "bad.png" ∉ (run envC3).copied) :=
  ⟨rfl, rfl, claim_C3 envC3 "bad.png" [0, 0, 0] 10 rfl rfl⟩

/-- Claim C4: when the source or upscaled directory is not a directory, the
resolver reports the validation error and returns at once: nothing is
copied, no summary is produced, and the missing directory is not created. -/
theorem claim_C4 (env : Env)
    (h : env.sourceDir = none ∨ env.upscaledDir = none) :
    run env =
      { validationError := true
        createdMissing := false
        copied := []
        error := none
        summary := none } := by
  unfold run
  rcases h with h | h
  · rw [h]
  · cases hsd : env.sourceDir with
    | none => rw [h]
    | some src => rw [h]

/-- Witness for C4: a run whose source directory is invalid. -/
theorem claim_C4_witness :
    (envC4.sourceDir = none ∨ envC4.upscaledDir = none) ∧
    run envC4 =
      { validationError := true
        createdMissing := false
        copied := []
        error := none
        summary := none } :=
  ⟨Or.inl rfl, claim_C4 envC4 (Or.inl rfl)⟩

/-- Claim C5: a source file whose case-folded stem equals that of some
entry of the upscaled directory is treated as present, even when the two
extensions differ: it is never copied. -/
theorem claim_C5 (env : Env) (ups : List DirEntry) (u f : String)
    (hu : env.upscaledDir = some ups) (hmem : u ∈ listdir ups)
    (hstem : stemLower f = stemLower u)
    (hext : (pySplitext f).2 ≠ (pySplitext u).2) :
    f ∉ (run env).copied := by
  intro hcop
  rcases mem_run_copied hcop with ⟨src, ups2, rgb, -, hu2, -, -, hsnap, -⟩
  rw [hu] at hu2
  obtain rfl : ups2 = ups := (Option.some.inj hu2).symm
  apply hsnap
  rw [hstem]
  unfold snapshotOf
  exact List.mem_map.mpr ⟨u, hmem, rfl⟩

/-- Witness for C5: `photo.png` in source, `photo.jpg` in upscaled. -/
theorem claim_C5_witness :
    envC5.upscaledDir = some [⟨"photo.jpg", false⟩] ∧
    "photo.jpg" ∈ listdir [⟨"photo.jpg", false⟩] ∧
    stemLower "photo.png" = stemLower "photo.jpg" ∧
    (pySplitext "photo.png").2 ≠ (pySplitext "photo.jpg").2 ∧
    "photo.png" ∉ (run envC5).copied :=
  ⟨rfl, by decide, by decide, by decide,
   claim_C5 envC5 _ "photo.jpg" "photo.png" rfl (by decide) (by decide)
     (by decide)⟩

/-- Claim C6: with source and upscaled directories unchanged, a second run
(after the missing directory was populated by the first) copies exactly the
same file list, reports the same summary, and — since each copy writes the
file under its original name, overwriting — adds no new name to the missing
directory. -/
theorem claim_C6 (env : Env) (init : List String) :
    (run { env with missingExists := true }).copied = (run env).copied ∧
    (run { env with missingExists := true }).summary = (run env).summary ∧
    applyCopies (applyCopies init (run env).copied)
        (run { env with missingExists := true }).copied =
      applyCopies init (run env).copied := by
  have hagree :=
    run_agree { env with missingExists := true } env rfl rfl rfl rfl rfl rfl
  refine ⟨hagree.1, hagree.2.2, ?_⟩
  rw [hagree.1]
  exact applyCopies_eq_of_subset (fun x hx => mem_applyCopies_of_mem hx)

/-- Claim C7: two distinct source entries with equal case-folded stems are
judged independently; when both pass the missing test and the optional
corner check (and the run completes), both are copied. -/
theorem claim_C7 (env : Env) (src ups : List DirEntry) (rgb : List Int)
    (a b : String)
    (hs : env.sourceDir = some src) (hu : env.upscaledDir = some ups)
    (hp : parseHexColor env.colorString = some rgb)
    (hco : ∀ f, env.copyOk f = true)
    (ha : a ∈ listdir src) (hb : b ∈ listdir src) (hab : a ≠ b)
    (hstem : stemLower a = stemLower b)
    (hpa : passes env (snapshotOf ups) rgb a = true)
    (hpb : passes env (snapshotOf ups) rgb b = true) :
    a ∈ (run env).copied ∧ b ∈ (run env).copied := by
  rw [run_complete hs hu hp hco]
  exact ⟨List.mem_filter.mpr ⟨ha, hpa⟩, List.mem_filter.mpr ⟨hb, hpb⟩⟩

/-- Witness for C7: `A.png` and `a.PNG` in the same source directory. -/
theorem claim_C7_witness :
    envC7.sourceDir = some [⟨"A.png", false⟩, ⟨"a.PNG", false⟩] ∧
    parseHexColor envC7.colorString = some [0, 0, 0] ∧
    ("A.png" : String) ≠ "a.PNG" ∧
    stemLower "A.png" = stemLower "a.PNG" ∧
    passes envC7 (snapshotOf []) [0, 0, 0] "A.png" = true ∧
    ("A.png" ∈ (run envC7).copied ∧ "a.PNG" ∈ (run envC7).copied) :=
  ⟨rfl, by decide, by decide, by decide, by decide,
   claim_C7 envC7 _ _ [0, 0, 0] "A.png" "a.PNG" rfl rfl (by decide) (fun _ => rfl)
     (by decide) (by decide) (by decide) (by decide) (by decide) (by decide)⟩

/-- Claim C8: a failing copy of one file is not guarded: the exception
escapes, the loop stops (so nothing after that file is copied and no
summary is produced), while the files already copied stay copied. -/
theorem claim_C8 (env : Env) (src ups : List DirEntry) (rgb : List Int)
    (f : String) (l1 l2 : List String)
    (hs : env.sourceDir = some src) (hu : env.upscaledDir = some ups)
    (hp : parseHexColor env.colorString = some rgb)
    (hsplit : listdir src = l1 ++ f :: l2)
    (h1 : ∀ g ∈ l1, env.copyOk g = true)
    (hpass : passes env (snapshotOf ups) rgb f = true)
    (hfail : env.copyOk f = false) :
    (run env).error = some (RunError.copyError f) ∧
    (run env).copied = l1.filter (passes env (snapshotOf ups) rgb) ∧
    (run env).summary = none := by
  have hrun : run env = processFiles env (snapshotOf ups) rgb (listdir src) [] := by
    unfold run
    rw [hs, hu, hp]
  rw [hrun, hsplit, processFiles_abort [] h1 hpass hfail]
  exact ⟨rfl, by simp, rfl⟩

/-- Witness for C8: copying `b.png` fails after `a.png` was copied. -/
theorem claim_C8_witness :
    listdir [⟨"a.png", false⟩, ⟨"b.png", false⟩] = ["a.png"] ++ "b.png" :: [] ∧
    envC8.copyOk "b.png" = false ∧
    ((run envC8).error = some (RunError.copyError "b.png") ∧
      (run envC8).copied = ["a.png"].filter (passes envC8 (snapshotOf []) [0, 0, 0]) ∧
      (run envC8).summary = none) :=
  ⟨by decide, by decide,
   claim_C8 envC8 _ _ _ "b.png" ["a.png"] [] rfl rfl (by decide) (by decide)
     (by decide) (by decide) (by decide)⟩

/-- Counterexample to C9 as stated: neither wrong length nor non-hex
characters make the invocation fail.  `#12345` has the wrong length for
`#RRGGBB` (five hex characters remain after stripping the hash), yet
`int("5", 16)` succeeds on the one-character third slice; `#+1+2+3` is made
of non-hex characters, yet `int(s, 16)` accepts a leading sign (and
surrounding whitespace, as in `# 0 0 0`).  Both runs complete normally and
copy their file. -/
theorem claim_C9_counterexample :
    (pyLstripHash envC9.colorString).length = 5 ∧
    parseHexColor envC9.colorString = some [18, 52, 5] ∧
    (run envC9).error = none ∧
    (run envC9).copied = ["x.png"] ∧
    (run envC9).summary = some 1 ∧
    parseHexColor envC9b.colorString = some [1, 2, 3] ∧
    parseHexColor "# 0 0 0" = some [0, 0, 0] ∧
    (run envC9b).error = none ∧
    (run envC9b).copied = ["x.png"] ∧
    (run envC9b).summary = some 1 := by
  refine ⟨?_, ?_, ?_, ?_, ?_, ?_, ?_, ?_, ?_, ?_⟩ <;> decide

/-- Claim C9 as amended: the color string is parsed unconditionally, before
any file is copied, even when the corner filter is disabled; whenever the
parse raises, the invocation fails with an unhandled exception after the
missing directory may have been created but before any file is copied.  In
particular the parse raises on every string with fewer than five characters
left after stripping leading hashes (its third two-character slice is
empty, and `int("", 16)` always raises). -/
theorem claim_C9 (env : Env) (src ups : List DirEntry)
    (hs : env.sourceDir = some src) (hu : env.upscaledDir = some ups)
    (hp : parseHexColor env.colorString = none) :
    run env =
      { validationError := false
        createdMissing := !env.missingExists
        copied := []
        error := some RunError.parseError
        summary := none } ∧
    ∀ s, (pyLstripHash s).length < 5 → parseHexColor s = none :=
  ⟨run_parse_failed hs hu hp, fun s h => parse_short_none s h⟩

/-- Witness for the amended C9: a run with the too-short string `#123`,
corner filter disabled, fails before copying its one source file. -/
theorem claim_C9_witness :
    parseHexColor envC9a.colorString = none ∧ envC9a.checkCorners = false ∧
    (run envC9a =
      { validationError := false
        createdMissing := !envC9a.missingExists
        copied := []
        error := some RunError.parseError
        summary := none } ∧
    ∀ s, (pyLstripHash s).length < 5 → parseHexColor s = none) :=
  ⟨by decide, rfl, claim_C9 envC9a _ _ rfl rfl (by decide)⟩

/-- Counterexample to C10 as stated: the upscaled subdirectory `a.b` has a
lowercased name equal to the case-folded stem of the source file `a.b.png`,
yet the copy is not suppressed: the snapshot holds the subdirectory's
splitext stem `a`, not its full name, so `a.b.png` is copied. -/
theorem claim_C10_counterexample :
    (∃ e ∈ [DirEntry.mk "a.b" true], e.isDir = true ∧
      pyLower e.name = stemLower "a.b.png") ∧
    envC10.upscaledDir = some [DirEntry.mk "a.b" true] ∧
    (run envC10).copied = ["a.b.png"] := by
  refine ⟨?_, rfl, ?_⟩ <;> decide

/-- Claim C10 as amended: the snapshot is built from every direct entry of
the upscaled directory, subdirectories included; an entry that is a
subdirectory suppresses a source file exactly as a file would, whenever the
entry's case-folded splitext stem equals the source file's case-folded
stem. -/
theorem claim_C10 (env : Env) (ups : List DirEntry) (e : DirEntry) (f : String)
    (hu : env.upscaledDir = some ups) (he : e ∈ ups) (hd : e.isDir = true)
    (hstem : stemLower e.name = stemLower f) :
    f ∉ (run env).copied := by
  intro hcop
  rcases mem_run_copied hcop with ⟨src, ups2, rgb, -, hu2, -, -, hsnap, -⟩
  rw [hu] at hu2
  obtain rfl : ups2 = ups := (Option.some.inj hu2).symm
  apply hsnap
  rw [← hstem]
  unfold snapshotOf listdir
  exact List.mem_map.mpr ⟨e.name, List.mem_map.mpr ⟨e, he, rfl⟩, rfl⟩

/-- Witness for the amended C10: the subdirectory `photo` of the upscaled
directory suppresses the copy of the source file `PHOTO.png`. -/
theorem claim_C10_witness :
    envC10a.upscaledDir = some [⟨"photo", true⟩] ∧
    (⟨"photo", true⟩ : DirEntry) ∈ [(⟨"photo", true⟩ : DirEntry)] ∧
    (DirEntry.mk "photo" true).isDir = true ∧
    stemLower (DirEntry.mk "photo" true).name = stemLower "PHOTO.png" ∧
    "PHOTO.png" ∉ (run envC10a).copied :=
  ⟨rfl, by decide, rfl, by decide,
   claim_C10 envC10a _ ⟨"photo", true⟩ "PHOTO.png" rfl (by decide) rfl
     (by decide)⟩
